import Mathlib

/-!
Verification development for the idb-crawler export pipeline
(`scripts/idb_export_to_json.mjs`, generations v6 and v7).

Shallow embedding conventions:
* JS strings are Lean `String`; JS `null`/absent values are `Option`.
* A raw scraped row (JS object of string cells) is an association list
  `RawRow`; key lookup models JS property access on the parsed row objects
  (the accessible-table parser always produces plain string-valued objects).
* JS numbers arising from `Number(...)` on digit/dot strings are modelled as
  exact rationals; the `Number.isFinite` guard is modelled by the exact
  double-overflow threshold `2^1024 - 2^970` (decimal values at or above it
  round to Infinity).
* External primitives consumed by the pipeline are passed as parameters:
  `sha` for node's sha256 hex digest, `urlp` for the WHATWG URL parser
  (`some (pathname, searchString)` on success, `none` when `new URL` throws),
  `jd` for the host's generic `new Date(string)` parser (`some ms` = valid
  time value in epoch milliseconds, `none` = Invalid Date), and `now` for the
  run timestamp.
* `Date.UTC(y, monthIndex, day)` is modelled by `dateUTCdays`, the ECMA
  MakeDay normalization (two-digit-year adjustment, month rollover, day
  offset) over the proleptic Gregorian calendar; `toISOString().slice(0,10)`
  is modelled by `isoOfDays` followed by `sliceChars 10` (expanded-year
  formats included).
* The process-level orchestrator is modelled by `mainResult`: `.ok notices`
  means the run writes both output files and exits zero, `.error e` means the
  run prints `e` and exits non-zero.
-/

/-- Days since 1970-01-01 of a proleptic Gregorian civil date (Hinnant's
`days_from_civil`, as used by ECMA `MakeDay`); called only with a normalized
month in `[1,12]`. -/
def daysFromCivil (y m d : Int) : Int :=
  let yAdj := if m ≤ 2 then y - 1 else y
  let era := Int.fdiv yAdj 400
  let yoe := yAdj - era * 400
  let mp := if m > 2 then m - 3 else m + 9
  let doy := Int.fdiv (153 * mp + 2) 5 + d - 1
  let doe := yoe * 365 + Int.fdiv yoe 4 - Int.fdiv yoe 100 + doy
  era * 146097 + doe - 719468

/-- Civil date `(year, month, day)` of a days-since-epoch count (Hinnant's
`civil_from_days`). -/
def civilFromDays (z0 : Int) : Int × Int × Int :=
  let z := z0 + 719468
  let era := Int.fdiv z 146097
  let doe := z - era * 146097
  let yoe := Int.fdiv (doe - Int.fdiv doe 1460 + Int.fdiv doe 36524 - Int.fdiv doe 146096) 365
  let y := yoe + era * 400
  let doy := doe - (365 * yoe + Int.fdiv yoe 4 - Int.fdiv yoe 100)
  let mp := Int.fdiv (5 * doy + 2) 153
  let d := doy - Int.fdiv (153 * mp + 2) 5 + 1
  let m := if mp < 10 then mp + 3 else mp - 9
  (if m ≤ 2 then y + 1 else y, m, d)

/-- Left-pad the decimal representation of `n` with zeros to width `w`. -/
def padZeros (w : Nat) (n : Nat) : String :=
  let s := toString n
  String.mk (List.replicate (w - s.length) '0') ++ s

/-- The date portion of ECMAScript `Date.prototype.toISOString` for the UTC
day `z` (days since epoch): four-digit years print as `YYYY-MM-DD`, years
outside `[0, 9999]` use the expanded `±YYYYYY-MM-DD` form. -/
def isoOfDays (z : Int) : String :=
  let c := civilFromDays z
  let y := c.1
  let ystr :=
    if 0 ≤ y ∧ y ≤ 9999 then padZeros 4 y.toNat
    else if 9999 < y then "+" ++ padZeros 6 y.toNat
    else "-" ++ padZeros 6 (-y).toNat
  ystr ++ "-" ++ padZeros 2 c.2.1.toNat ++ "-" ++ padZeros 2 c.2.2.toNat

/-- ECMA `Date.UTC(y, monthIndex, day)` reduced to days since epoch: the
two-digit-year adjustment, month normalization (with rollover into the year),
and day-offset arithmetic of `MakeDay`. -/
def dateUTCdays (y mIdx d : Int) : Int :=
  let yy := if 0 ≤ y ∧ y ≤ 99 then y + 1900 else y
  let ym := yy * 12 + mIdx
  let yn := Int.fdiv ym 12
  let mn := Int.emod ym 12
  daysFromCivil yn (mn + 1) 1 + (d - 1)

/-- The time-value bound of ECMA dates, in whole days: `Date.UTC` yields a
finite number exactly when the produced day count is within
±100,000,000 days of the epoch (±8.64e15 ms). -/
def maxEcmaDays : Nat := 100000000

/-- JS `String.prototype.slice(0, n)` — the first `n` characters (code units
and characters coincide for every string this pipeline builds). -/
def sliceChars (n : Nat) (s : String) : String :=
  String.mk (s.data.take n)

/-- JS `String.prototype.trim()`: drop leading and trailing whitespace. -/
def trimChars (s : String) : String :=
  String.mk (((s.data.dropWhile Char.isWhitespace).reverse.dropWhile Char.isWhitespace).reverse)

/-- Character-wise replacement (JS `replace(/.../g, c)` on single
characters). -/
def mapChars (f : Char → Char) (s : String) : String :=
  String.mk (s.data.map f)

/-- ASCII uppercase (JS `toUpperCase` on the ASCII header labels used here). -/
def upperChars (s : String) : String :=
  mapChars Char.toUpper s

/-- ASCII lowercase (JS `toLowerCase`). -/
def lowerChars (s : String) : String :=
  mapChars Char.toLower s

/-- The worker of `splitChars`: `acc` holds the current piece reversed. -/
def splitCharsAux (p : Char → Bool) : List Char → List Char → List String
  | [], acc => [String.mk acc.reverse]
  | c :: rest, acc =>
    if p c then String.mk acc.reverse :: splitCharsAux p rest []
    else splitCharsAux p rest (c :: acc)

/-- JS `String.prototype.split` on a single-character class: cut the string
at every separator character, keeping empty pieces. -/
def splitChars (p : Char → Bool) (s : String) : List String :=
  splitCharsAux p s.data []

/-- Substring containment, modelling a JS regex literal-alternative test
such as `/award/.test(t)`. -/
def strContains (s pat : String) : Bool :=
  s.data.tails.any (fun t => pat.data.isPrefixOf t)

/-- Keep only the characters satisfying `p` (JS `replace(/[^...]/g, "")`). -/
def filterChars (p : Char → Bool) (s : String) : String :=
  String.mk (s.data.filter p)

/-- JS `parseInt(tok, 10)` on a whitespace-free token: an optional sign
followed by leading decimal digits (trailing garbage ignored); `none` models
`NaN` when no digit is found. -/
def jsParseInt (t : String) : Option Int :=
  let core : Int → List Char → Option Int := fun sign ds =>
    let digits := ds.takeWhile Char.isDigit
    if digits.isEmpty then none
    else some (sign * ((digits.foldl (fun a ch => a * 10 + (ch.toNat - 48)) 0 : Nat) : Int))
  match t.data with
  | [] => none
  | c :: rest =>
    if c == '+' then core 1 rest
    else if c == '-' then core (-1) rest
    else core 1 (c :: rest)

/-- `toISO` of generation v7: structured parsing of `DD/MM/YYYY`,
`MM/DD/YYYY`, `YYYY/MM/DD` and variants, with fallback to the host's generic
date parser `jd`. -/
def toISO (jd : String → Option Int) (raw : Option String) : Option String :=
  match raw with
  | none => none
  | some r =>
    if r = "" then none
    else
      let s := mapChars (fun c => if c == '.' || c == '-' then '/' else c) (trimChars r)
      let parts := (splitChars (fun c => c == '/' || c.isWhitespace) s).filter (· ≠ "")
      let nums := parts.filterMap jsParseInt
      let fallback : Option String :=
        (jd s).map (fun ms => sliceChars 10 (isoOfDays (Int.fdiv ms 86400000)))
      match nums with
      | a :: b :: c :: _ =>
        let ymd :=
          if 1900 < a ∧ a ≤ 2100 then (a, b, c)
          else if 12 < a then (c, b, a)
          else if 12 < b then (c, a, b)
          else (c, b, a)
        let days := dateUTCdays ymd.1 (ymd.2.1 - 1) ymd.2.2
        if days.natAbs ≤ maxEcmaDays then some (sliceChars 10 (isoOfDays days))
        else fallback
      | _ => fallback

/-- Value of a decimal digit string. -/
def natOfDigits (t : String) : Nat :=
  t.data.foldl (fun a c => a * 10 + (c.toNat - 48)) 0

/-- JS `Number()` applied to a digits-and-dots-only string (the output of the
`toNum` strip): empty string is `0`, a decimal numeral with at most one dot
and at least one digit is its exact value, anything else is `NaN` (`none`).
Values are exact rationals; see `jsFiniteLimit` for the overflow cut. -/
def jsNumberOfStripped (s : String) : Option ℚ :=
  if s = "" then some 0
  else
    match splitChars (· == '.') s with
    | [ip] =>
      if ip.data.all Char.isDigit ∧ ip ≠ "" then some (natOfDigits ip) else none
    | [ip, fp] =>
      if (ip.data.all Char.isDigit ∧ fp.data.all Char.isDigit) ∧ ¬ (ip = "" ∧ fp = "") then
        some ((natOfDigits ip : ℚ) + (natOfDigits fp : ℚ) / ((10 ^ fp.length : Nat) : ℚ))
      else none
    | _ => none

/-- Exact threshold at which a nonnegative decimal value rounds to Infinity
as an IEEE double, making `Number.isFinite` fail; the literal equals
`2 ^ 1024 - 2 ^ 970` (see `jsFiniteLimit_eq`). -/
def jsFiniteLimit : ℚ := (179769313486231580793728971405303415079934132710037826936173778980444968292764750946649017977587207096330286416692887910946555547851940402630657488671505820681908902000708383676273854845817711531764475730270069855571366959622842914819860834936475292719074168444365510704342711559699508093042880177904174497792 : Nat)

/-- `toNum` (identical in v6 and v7): strip every character that is not a
digit or a dot, parse the remainder with `Number`, and null out non-finite
results. -/
def toNumStr (s : String) : Option ℚ :=
  match jsNumberOfStripped (filterChars (fun c => c.isDigit || c == '.') s) with
  | none => none
  | some q => if q < jsFiniteLimit then some q else none

/-- `toNum` proper: JS `v == null` short-circuits to `null`. -/
def toNum (v : Option String) : Option ℚ :=
  match v with
  | none => none
  | some s => toNumStr s

/-- `inferSectors` (identical in v6 and v7): first-match keyword scan over
the lowercased title. -/
def inferSectors (title : String) : List String :=
  let t := lowerChars title
  if strContains t ("energy") || strContains t ("power") || strContains t ("electric") then ["Energy"]
  else if strContains t ("road") || strContains t ("rail") || strContains t ("transport") then ["Transport"]
  else if strContains t ("water") || strContains t ("waste") then ["Water"]
  else if strContains t ("ict") || strContains t ("digital") then ["ICT"]
  else ["Other"]

/-- `classifyType` of generation v7: keyword dispatch, preserving the raw
string (or "Other" when empty) on no match. -/
def classifyType (s : String) : String :=
  let t := lowerChars s
  if strContains t ("expression of interest") || strContains t ("reoi") then "REOI"
  else if strContains t ("invitation to bid") || strContains t ("rfb") || strContains t ("itb") then "RFB/ITB"
  else if strContains t ("request for proposals") || strContains t ("rfp") then "RFP"
  else if strContains t ("general procurement notice") || strContains t ("gpn") then "GPN"
  else if strContains t ("award") then "Award"
  else if s = "" then "Other" else s

/-- `classifyType` of generation v6: same keyword dispatch, but every
unmatched input collapses to "Other". -/
def classifyType_v6 (s : String) : String :=
  let t := lowerChars s
  if strContains t ("expression of interest") || strContains t ("reoi") then "REOI"
  else if strContains t ("invitation to bid") || strContains t ("rfb") || strContains t ("itb") then "RFB/ITB"
  else if strContains t ("request for proposals") || strContains t ("rfp") then "RFP"
  else if strContains t ("general procurement notice") || strContains t ("gpn") then "GPN"
  else if strContains t ("award") then "Award"
  else "Other"

/-- The disjunction of `classifyType`'s five keyword conditions. -/
def typeKeywordHit (s : String) : Bool :=
  let t := lowerChars s
  (strContains t ("expression of interest") || strContains t ("reoi")) ||
  (strContains t ("invitation to bid") || strContains t ("rfb") || strContains t ("itb")) ||
  (strContains t ("request for proposals") || strContains t ("rfp")) ||
  (strContains t ("general procurement notice") || strContains t ("gpn")) ||
  strContains t ("award")

/-- `classifyCategory` of generation v7: raw-preserving fallback. -/
def classifyCategory (s : String) : String :=
  let t := lowerChars s
  if strContains t ("works") then "Works"
  else if strContains t ("goods") || strContains t ("supply") then "Goods"
  else if strContains t ("consult") then "Consulting"
  else if s = "" then "Other" else s

/-- `classifyCategory` of generation v6: "Other" fallback. -/
def classifyCategory_v6 (s : String) : String :=
  let t := lowerChars s
  if strContains t ("works") then "Works"
  else if strContains t ("goods") || strContains t ("supply") then "Goods"
  else if strContains t ("consult") then "Consulting"
  else "Other"

/-- The disjunction of `classifyCategory`'s three keyword conditions. -/
def catKeywordHit (s : String) : Bool :=
  let t := lowerChars s
  strContains t ("works") ||
  (strContains t ("goods") || strContains t ("supply")) ||
  strContains t ("consult")

/-- `mapCountryToISO2` (identical in v6 and v7): exact-match lookup on the
trimmed name against the fixed Latin American/Caribbean table. -/
def mapCountryToISO2 (name : String) : Option String :=
  let k := trimChars name
  if k = "Argentina" then some "AR"
  else if k = "Brazil" then some "BR"
  else if k = "Chile" then some "CL"
  else if k = "Colombia" then some "CO"
  else if k = "Costa Rica" then some "CR"
  else if k = "Dominican Republic" then some "DO"
  else if k = "Ecuador" then some "EC"
  else if k = "El Salvador" then some "SV"
  else if k = "Guatemala" then some "GT"
  else if k = "Haiti" then some "HT"
  else if k = "Honduras" then some "HN"
  else if k = "Jamaica" then some "JM"
  else if k = "Mexico" then some "MX"
  else if k = "Nicaragua" then some "NI"
  else if k = "Panama" then some "PA"
  else if k = "Paraguay" then some "PY"
  else if k = "Peru" then some "PE"
  else if k = "Uruguay" then some "UY"
  else if k = "Trinidad and Tobago" then some "TT"
  else if k = "Barbados" then some "BB"
  else if k = "Belize" then some "BZ"
  else if k = "Bolivia" then some "BO"
  else if k = "Guyana" then some "GY"
  else if k = "Suriname" then some "SR"
  else if k = "Bahamas" then some "BS"
  else none

/-- The configured target page URL (`PAGE_URL`). -/
def PAGE_URL : String := "https://projectprocurement.iadb.org/en/procurement-notices"

/-- `stableIdFromURLorTitle` (identical in v6 and v7): slug from the URL's
last path segment (query string, then raw URL, as fallbacks), sanitized and
truncated, degrading to a truncated digest of the URL (or of the title when
no URL is present). `sha` is the hex digest primitive, `urlp` the WHATWG URL
parser. -/
def stableIdFromURLorTitle (sha : String → String) (urlp : String → Option (String × String))
    (url : Option String) (title : String) : String :=
  match url with
  | some u =>
    match urlp u with
    | some ps =>
      let segs := (splitChars (· == '/') ps.1).filter (· ≠ "")
      let base :=
        match segs.getLast? with
        | some sg => sg
        | none => if ps.2 ≠ "" then ps.2 else u
      let cleaned :=
        sliceChars 80 (filterChars (fun c => c.isAlphanum || c == '-' || c == '_' || c == '.') base)
      if cleaned = "" then sliceChars 16 (sha u) else cleaned
    | none => sliceChars 16 (sha u)
  | none => sliceChars 16 (sha title)

/-- A raw scraped row: an association of header labels to cell strings. -/
def RawRow : Type := List (String × String)

/-- One case-sensitive probe of `headerPick`: the key must be present and its
value non-blank after trimming; the untrimmed value is returned. -/
def pickKey (r : RawRow) (k : String) : Option String :=
  match List.lookup k r with
  | some v => if trimChars v = "" then none else some v
  | none => none

/-- The three case probes `headerPick` makes for one alias: the alias as
written, its all-uppercase form, then its all-lowercase form. -/
def pickVariants (r : RawRow) (k : String) : Option String :=
  match pickKey r k with
  | some v => some v
  | none =>
    match pickKey r (upperChars k) with
    | some v => some v
    | none => pickKey r (lowerChars k)

/-- `headerPick` of generation v7: scan the alias list in order, returning
the first alias (in one of its three case variants) bound to a non-blank
value. -/
def headerPick (r : RawRow) : List String → Option String
  | [] => none
  | k :: ks =>
    match pickVariants r k with
    | some v => some v
    | none => headerPick r ks

/-- The canonical output record of generation v7 (field-for-field the object
literal built by `normalizeRows`). -/
structure CanonicalRecord where
  id : String
  source : String
  noticeId : String
  projectId : Option String
  projectName : Option String
  title : String
  summary_original : Option String
  summary_ko : Option String
  countryName : Option String
  country : Option String
  sector : List String
  category : String
  method : Option String
  noticeType : String
  currency : Option String
  budgetEstimate : Option ℚ
  publicationDate : Option String
  deadline : Option String
  buyer : Option String
  city : Option String
  language : List String
  url : String
  documents : List String
  lastSeenAt : String
  hash : String
deriving DecidableEq

/-- The body of `normalizeRows`'s `map` in generation v7: resolve each
logical field through its alias list, apply the text normalizers, derive the
stable id and the content hash. `now` is the run timestamp
(`new Date().toISOString()`). -/
def normalizeRow (sha : String → String) (urlp : String → Option (String × String))
    (jd : String → Option Int) (now : String) (r : RawRow) : CanonicalRecord :=
  let title := headerPick r [("Notice Title"), ("Title")]
  let url := headerPick r [("URL"), ("Link"), ("Notice URL")]
  let countryName := headerPick r [("Country")]
  let noticeType := headerPick r [("Type"), ("Notice Type")]
  let projName := headerPick r [("Project Name"), ("Project")]
  let projNo := headerPick r [("Project Number"), ("Project ID")]
  let pub := headerPick r [("Publication Date"), ("Posted")]
  let due := headerPick r [("Due Date"), ("Deadline"), ("Closing Date")]
  let buyer := headerPick r [("Executing Agency"), ("Buyer"), ("Agency")]
  let category := headerPick r [("Category")]
  let method := headerPick r [("Method")]
  let currency := headerPick r [("Currency")]
  let budget := headerPick r [("Budget"), ("Estimate")]
  let titleSafe := if trimChars (title.getD "") = "" then "(untitled)" else trimChars (title.getD "")
  let id := "IDB:" ++ stableIdFromURLorTitle sha urlp url titleSafe
  let urlOut := url.getD PAGE_URL
  let deadline := toISO jd due
  { id := id
    source := "IDB"
    noticeId := ((splitChars (· == ':') id).get? 1).getD ""
    projectId := projNo
    projectName := projName
    title := titleSafe
    summary_original := none
    summary_ko := none
    countryName := countryName
    country := mapCountryToISO2 (countryName.getD "")
    sector := inferSectors titleSafe
    category :=
      if trimChars (category.getD "") = "" then classifyCategory (noticeType.getD "")
      else trimChars (category.getD "")
    method := method
    noticeType := classifyType (noticeType.getD "")
    currency := currency
    budgetEstimate := toNum budget
    publicationDate := toISO jd pub
    deadline := deadline
    buyer := buyer
    city := none
    language := ["en"]
    url := urlOut
    documents := []
    lastSeenAt := now
    hash := sha (titleSafe ++ "|" ++ countryName.getD "" ++ "|" ++ deadline.getD "" ++ "|" ++ urlOut) }

/-- `normalizeRows` of generation v7: map every raw row through
`normalizeRow`, then keep only records whose `title` and `url` are truthy
(non-empty). -/
def normalizeRows (sha : String → String) (urlp : String → Option (String × String))
    (jd : String → Option Int) (now : String) (rows : List RawRow) : List CanonicalRecord :=
  (rows.map (normalizeRow sha urlp jd now)).filter
    (fun x => !(x.title == "") && !(x.url == ""))

/-- The dedup key `` `${n.id}:${n.hash}` ``. -/
def dedupeKey (n : CanonicalRecord) : String := n.id ++ ":" ++ n.hash

/-- The loop of `dedupeByIdHash`: walk the records in order, keeping a record
exactly when its key has not been seen; JS `Map` preserves insertion order,
so kept records appear in input order. -/
def dedupeGo (seen : List String) : List CanonicalRecord → List CanonicalRecord
  | [] => []
  | n :: rest =>
    if seen.contains (dedupeKey n) then dedupeGo seen rest
    else n :: dedupeGo (dedupeKey n :: seen) rest

/-- `dedupeByIdHash` (identical in v6 and v7). -/
def dedupeByIdHash (arr : List CanonicalRecord) : List CanonicalRecord :=
  dedupeGo [] arr

/-- The whole-parse attempt budget (`RETRIES`). -/
def RETRIES : Nat := 3

/-- The fatal error thrown when the grid is still absent on the final
attempt. -/
def gridErrMsg : String := "Power BI grid not visible after waiting"

/-- The attempt indices `1, ..., RETRIES` walked by the orchestrator's `for`
loop. -/
def attemptIndices : List Nat := List.range' 1 RETRIES

/-- The orchestrator's retry loop: per attempt, wait for the grid
(`ready a`); when absent on the final attempt, throw; when present, parse
(`parse a`) and stop at the first non-empty row set. Falls off the loop with
whatever `rawRows` last held — possibly the empty list. -/
def retryLoop (ready : Nat → Bool) (parse : Nat → List RawRow) :
    List Nat → List RawRow → Except String (List RawRow)
  | [], acc => Except.ok acc
  | a :: rest, acc =>
    if ready a then
      let rows := parse a
      if rows.isEmpty then retryLoop ready parse rest rows
      else Except.ok rows
    else if rest.isEmpty then Except.error gridErrMsg
    else retryLoop ready parse rest acc

/-- The tail of `main` after the iframe is located: run the retry loop, then
unconditionally normalize, dedupe, write both output files and exit zero
(`Except.ok notices`); any thrown error is printed and the process exits
non-zero (`Except.error`). -/
def mainResult (ready : Nat → Bool) (parse : Nat → List RawRow) (sha : String → String)
    (urlp : String → Option (String × String)) (jd : String → Option Int) (now : String) :
    Except String (List CanonicalRecord) :=
  match retryLoop ready parse attemptIndices [] with
  | Except.error e => Except.error e
  | Except.ok raws => Except.ok (dedupeByIdHash (normalizeRows sha urlp jd now raws))

/-- Identity stand-in used to instantiate the digest parameter `sha` in
concrete evaluations (the real sha256 hex digest only matters through
injectivity, which the identity shares). -/
def digestStand : String → String := fun s => s

/-- Stand-in for the WHATWG URL parser on inputs it rejects (none of the
concrete rows evaluated below carries a parseable URL). -/
def urlpNone : String → Option (String × String) := fun _ => none

/-- Stand-in for the host's generic `new Date(string)` parser on strings it
rejects (`Invalid Date`). -/
def jdNone : String → Option Int := fun _ => none

theorem digestStand_injective : Function.Injective digestStand := fun _ _ h => h

/-- C3 (counterexample): on the spec's end-to-end row
`{"Notice Title": "Bridge Rehabilitation", "Country": "Peru",
"Due Date": "15/03/2024"}`, the pipeline's single record carries
`sector = ["Other"]`, not the claimed `["Transport"]` — the title contains
none of the sector keywords (`road`, `rail`, `transport`, ...). -/
theorem C3_counterexample :
    (dedupeByIdHash (normalizeRows digestStand urlpNone jdNone ("T")
        [[(("Notice Title"), ("Bridge Rehabilitation")), (("Country"), ("Peru")),
          (("Due Date"), ("15/03/2024"))]])).map CanonicalRecord.sector = [["Other"]]
    ∧ ¬ ((dedupeByIdHash (normalizeRows digestStand urlpNone jdNone ("T")
        [[(("Notice Title"), ("Bridge Rehabilitation")), (("Country"), ("Peru")),
          (("Due Date"), ("15/03/2024"))]])).map CanonicalRecord.sector = [["Transport"]]) := by
  decide

/-- C3 (amended): for every digest, URL parser, generic date parser and run
timestamp, the pipeline (`normalizeRows` then `dedupeByIdHash`) on the single
row `{"Notice Title": "Bridge Rehabilitation", "Country": "Peru",
"Due Date": "15/03/2024"}` yields exactly one record with
`title = "Bridge Rehabilitation"`, `country = "PE"`,
`deadline = "2024-03-15"` and `sector = ["Other"]`. -/
theorem C3_pipeline_scenario (sha : String → String)
    (urlp : String → Option (String × String)) (jd : String → Option Int) (now : String) :
    (dedupeByIdHash (normalizeRows sha urlp jd now
        [[(("Notice Title"), ("Bridge Rehabilitation")), (("Country"), ("Peru")),
          (("Due Date"), ("15/03/2024"))]])).length = 1
    ∧ (dedupeByIdHash (normalizeRows sha urlp jd now
        [[(("Notice Title"), ("Bridge Rehabilitation")), (("Country"), ("Peru")),
          (("Due Date"), ("15/03/2024"))]])).map
        (fun r => (r.title, r.country, r.deadline, r.sector))
      = [(("Bridge Rehabilitation"), some ("PE"), some ("2024-03-15"), ["Other"])] := by
  exact ⟨rfl, rfl⟩

/-- C7: the v7 date normalizer hits all five documented cases: day-first,
year-first, day-over-12 forcing, empty input, and unparseable input (the
last under the sole assumption that the host's generic parser also rejects
`"not a date"`). -/
theorem C7_toISO_examples (jd : String → Option Int) (h : jd ("not a date") = none) :
    toISO jd (some ("31/01/2024")) = some ("2024-01-31")
    ∧ toISO jd (some ("2024/01/31")) = some ("2024-01-31")
    ∧ toISO jd (some ("13/02/2024")) = some ("2024-02-13")
    ∧ toISO jd (some ("")) = none
    ∧ toISO jd (some ("not a date")) = none := by
  refine ⟨rfl, rfl, rfl, rfl, ?_⟩
  have e : toISO jd (some ("not a date"))
      = (jd ("not a date")).map (fun ms => sliceChars 10 (isoOfDays (Int.fdiv ms 86400000))) := rfl
  rw [e, h]
  rfl

/-- C7 (witness): the equalities at the concrete always-rejecting generic
parser. -/
theorem C7_witness :
    toISO jdNone (some ("31/01/2024")) = some ("2024-01-31")
    ∧ toISO jdNone (some ("2024/01/31")) = some ("2024-01-31")
    ∧ toISO jdNone (some ("13/02/2024")) = some ("2024-02-13")
    ∧ toISO jdNone (some ("")) = none
    ∧ toISO jdNone (some ("not a date")) = none :=
  C7_toISO_examples jdNone rfl

/-- C10 (counterexample): `"32/01/999999999"` parses to three numeric tokens
with day component 32 (outside the calendar range), yet `toISO` returns
`null`: the rolled-over date exceeds the ECMA time-value bound, so
`Number.isFinite` fails and the fallback generic parse (here the rejecting
stand-in, as in any real host for this string) also fails. -/
theorem C10_counterexample :
    toISO jdNone (some ("32/01/999999999")) = none := by
  decide

/-- C10 (amended): for out-of-range day components whose rolled-over date
stays within the ECMA time-value bound, the structured path indeed returns
the rolled-over calendar date, independent of the generic parser:
`32/01/2024 ↦ 2024-02-01` and `31/02/2024 ↦ 2024-03-02`. -/
theorem C10_rollover (jd : String → Option Int) :
    toISO jd (some ("32/01/2024")) = some ("2024-02-01")
    ∧ toISO jd (some ("31/02/2024")) = some ("2024-03-02") :=
  ⟨rfl, rfl⟩

theorem jsFiniteLimit_eq : jsFiniteLimit = ((2 ^ 1024 - 2 ^ 970 : Nat) : ℚ) := by
  have h : (179769313486231580793728971405303415079934132710037826936173778980444968292764750946649017977587207096330286416692887910946555547851940402630657488671505820681908902000708383676273854845817711531764475730270069855571366959622842914819860834936475292719074168444365510704342711559699508093042880177904174497792 : Nat)
      = 2 ^ 1024 - 2 ^ 970 := by norm_num
  unfold jsFiniteLimit
  exact_mod_cast congrArg (fun n : Nat => (n : ℚ)) h

theorem jsNumberOfStripped_12005 : jsNumberOfStripped ("1200.50") = some ((1200.50 : ℚ)) := by
  have h1 : splitChars (· == '.') ("1200.50") = [("1200"), ("50")] := by decide
  simp only [jsNumberOfStripped, h1]
  rw [if_neg (by decide : ¬ ("1200.50" : String) = "")]
  rw [if_pos (show (("1200" : String).data.all Char.isDigit ∧ ("50" : String).data.all Char.isDigit)
        ∧ ¬ (("1200" : String) = "" ∧ ("50" : String) = "")
      from ⟨⟨by decide, by decide⟩, by decide⟩)]
  rw [show natOfDigits ("1200") = 1200 from by decide,
    show natOfDigits ("50") = 50 from by decide,
    show (("50" : String).length) = 2 from by decide]
  congr 1
  norm_num

theorem toNumStr_usd : toNumStr ("USD 1,200.50") = some ((1200.50 : ℚ)) := by
  have h0 : filterChars (fun c => c.isDigit || c == '.') ("USD 1,200.50") = "1200.50" := by
    decide
  simp only [toNumStr, h0, jsNumberOfStripped_12005]
  rw [if_pos (show ((1200.50 : ℚ)) < jsFiniteLimit from by rw [jsFiniteLimit_eq]; norm_num)]

/-- C8 (counterexample): a string with no digits at all strips to the empty
string, and JS `Number("")` is `0` — a finite value — so `toNum ("abc")`
returns `0`, not `null` as the claim demands for strings with no parseable
numeric content. -/
theorem C8_counterexample :
    toNum (some ("abc")) = some 0 ∧ ¬ toNum (some ("abc")) = none := by
  decide

/-- C8 (amended): `toNum` strips non-digit/non-dot characters and parses the
remainder; `toNum ("USD 1,200.50") = 1200.50` and `toNum (null) = null`, but
a string whose stripped remainder is empty yields `0` (JS `Number("") = 0`);
`null` is produced for malformed stripped numerals such as `"1.2.3"` or
`"."`. -/
theorem C8_toNum_behavior :
    toNum (some ("USD 1,200.50")) = some ((1200.50 : ℚ))
    ∧ toNum none = none
    ∧ (∀ s : String, filterChars (fun c => c.isDigit || c == '.') s = "" →
        toNum (some s) = some 0)
    ∧ toNum (some ("1.2.3")) = none
    ∧ toNum (some (".")) = none := by
  refine ⟨toNumStr_usd, rfl, ?_, by decide, by decide⟩
  intro s hs
  show toNumStr s = some 0
  unfold toNumStr
  rw [hs]
  decide

/-- C8 (witness): the empty-strip clause at the concrete input `"xyz"`. -/
theorem C8_witness : toNum (some ("xyz")) = some 0 :=
  C8_toNum_behavior.2.2.1 ("xyz") (by decide)

theorem pickKey_some_nonblank (r : RawRow) (k v : String) (h : pickKey r k = some v) :
    trimChars v ≠ "" := by
  cases hl : List.lookup k r with
  | none => simp [pickKey, hl] at h
  | some w =>
    simp only [pickKey, hl] at h
    by_cases ht : trimChars w = ""
    · simp [ht] at h
    · simp [ht] at h
      subst h
      exact ht

theorem pickVariants_some_nonblank (r : RawRow) (k v : String)
    (h : pickVariants r k = some v) : trimChars v ≠ "" := by
  unfold pickVariants at h
  cases h1 : pickKey r k with
  | some w => rw [h1] at h; cases h; exact pickKey_some_nonblank r k v h1
  | none =>
    rw [h1] at h
    cases h2 : pickKey r (upperChars k) with
    | some w => rw [h2] at h; cases h; exact pickKey_some_nonblank r (upperChars k) v h2
    | none => rw [h2] at h; exact pickKey_some_nonblank r (lowerChars k) v h

theorem headerPick_some_nonblank (ks : List String) (r : RawRow) (v : String)
    (h : headerPick r ks = some v) : trimChars v ≠ "" := by
  induction ks with
  | nil => cases h
  | cons k rest ih =>
    unfold headerPick at h
    cases hv : pickVariants r k with
    | some w => rw [hv] at h; cases h; exact pickVariants_some_nonblank r k v hv
    | none => rw [hv] at h; exact ih h

theorem headerPick_some_ne_empty (ks : List String) (r : RawRow) (v : String)
    (h : headerPick r ks = some v) : v ≠ "" := by
  intro he
  subst he
  exact headerPick_some_nonblank ks r "" h rfl

theorem normalizeRow_title_eq (sha : String → String) (urlp : String → Option (String × String))
    (jd : String → Option Int) (now : String) (r : RawRow) :
    (normalizeRow sha urlp jd now r).title
      = (if trimChars ((headerPick r [("Notice Title"), ("Title")]).getD "") = ""
         then "(untitled)"
         else trimChars ((headerPick r [("Notice Title"), ("Title")]).getD "")) := rfl

theorem normalizeRow_url_eq (sha : String → String) (urlp : String → Option (String × String))
    (jd : String → Option Int) (now : String) (r : RawRow) :
    (normalizeRow sha urlp jd now r).url
      = (headerPick r [("URL"), ("Link"), ("Notice URL")]).getD PAGE_URL := rfl

theorem normalizeRow_title_ne_empty (sha : String → String)
    (urlp : String → Option (String × String)) (jd : String → Option Int) (now : String)
    (r : RawRow) : (normalizeRow sha urlp jd now r).title ≠ "" := by
  rw [normalizeRow_title_eq]
  by_cases ht : trimChars ((headerPick r [("Notice Title"), ("Title")]).getD "") = ""
  · rw [if_pos ht]; decide
  · rw [if_neg ht]; exact ht

theorem normalizeRow_url_ne_empty (sha : String → String)
    (urlp : String → Option (String × String)) (jd : String → Option Int) (now : String)
    (r : RawRow) : (normalizeRow sha urlp jd now r).url ≠ "" := by
  rw [normalizeRow_url_eq]
  cases hu : headerPick r [("URL"), ("Link"), ("Notice URL")] with
  | none => decide
  | some u =>
    have := headerPick_some_ne_empty _ r u hu
    simpa using this

/-- C2 (counterexample): the empty raw row — every title alias and every URL
alias absent — is NOT excluded: `normalizeRows` emits a record for it, with
the sentinel title and the configured default page URL. -/
theorem C2_counterexample :
    (normalizeRows digestStand urlpNone jdNone ("T") [([] : RawRow)]).map
        (fun x => (x.title, x.url))
      = [(("(untitled)"), PAGE_URL)]
    ∧ (normalizeRows digestStand urlpNone jdNone ("T") [([] : RawRow)]).length = 1 := by
  decide

/-- C2 (amended): the retention filter of `normalizeRows` is vacuous — the
sentinel title and the default-page-URL fallback make `title` and `url`
non-empty on every record, so no row is ever excluded; a row with all title
and URL aliases absent or blank is emitted with `title = "(untitled)"` and
`url` the default page URL. -/
theorem C2_no_row_excluded (sha : String → String) (urlp : String → Option (String × String))
    (jd : String → Option Int) (now : String) :
    (∀ rows, (normalizeRows sha urlp jd now rows).length = rows.length)
    ∧ (∀ r : RawRow, headerPick r [("Notice Title"), ("Title")] = none →
        headerPick r [("URL"), ("Link"), ("Notice URL")] = none →
        (normalizeRows sha urlp jd now [r]).map (fun x => (x.title, x.url))
          = [(("(untitled)"), PAGE_URL)]) := by
  constructor
  · intro rows
    unfold normalizeRows
    rw [List.filter_eq_self.mpr]
    · exact List.length_map rows _
    · intro x hx
      obtain ⟨r, _, rfl⟩ := List.mem_map.mp hx
      have ht := normalizeRow_title_ne_empty sha urlp jd now r
      have hu := normalizeRow_url_ne_empty sha urlp jd now r
      simp [ht, hu]
  · intro r h1 h2
    have ht : (normalizeRow sha urlp jd now r).title = "(untitled)" := by
      rw [normalizeRow_title_eq, h1]
      rfl
    have hu : (normalizeRow sha urlp jd now r).url = PAGE_URL := by
      rw [normalizeRow_url_eq, h2]
      rfl
    unfold normalizeRows
    simp [List.filter, ht, hu, show (!(PAGE_URL == "")) = true from by decide]

/-- C2 (witness): the amended claim at the concrete empty row and the
identity digest stand-in. -/
theorem C2_witness :
    (normalizeRows digestStand urlpNone jdNone ("T") [([] : RawRow)]).map
        (fun x => (x.title, x.url))
      = [(("(untitled)"), PAGE_URL)] :=
  (C2_no_row_excluded digestStand urlpNone jdNone ("T")).2 ([] : RawRow) rfl rfl

/-- C1 (counterexample): with the grid ready on every attempt but the parser
returning zero rows each time, the run does NOT fail — it ends in the
success state (`Except.ok []`): both output files are written with an empty
record set and the process exits zero, printing `OK: 0 notices`. -/
theorem C1_counterexample :
    mainResult (fun _ => true) (fun _ => []) digestStand urlpNone jdNone ("T")
      = Except.ok [] := rfl

/-- C1 (amended): the orchestrator throws (non-zero exit, error printed)
only when the grid is still not visible on the final attempt; when every
attempt is grid-ready but extracts zero rows, the retry budget is exhausted
silently and the run writes both output files with an empty record set and
exits zero. -/
theorem C1_orchestrator_exit_contract :
    (∀ (ready : Nat → Bool) (parse : Nat → List RawRow) (sha : String → String)
        (urlp : String → Option (String × String)) (jd : String → Option Int) (now : String),
      (∀ a, ready a = true) → (∀ a, parse a = []) →
      mainResult ready parse sha urlp jd now = Except.ok [])
    ∧ (∀ (ready : Nat → Bool) (parse : Nat → List RawRow) (sha : String → String)
        (urlp : String → Option (String × String)) (jd : String → Option Int) (now : String),
      (∀ a, ready a = false) →
      mainResult ready parse sha urlp jd now = Except.error gridErrMsg) := by
  constructor
  · intro ready parse sha urlp jd now hr hp
    have e : attemptIndices = [1, 2, 3] := rfl
    have h : retryLoop ready parse attemptIndices [] = Except.ok [] := by
      rw [e]
      simp [retryLoop, hr 1, hr 2, hr 3, hp 1, hp 2, hp 3]
    unfold mainResult
    rw [h]
    rfl
  · intro ready parse sha urlp jd now hr
    have e : attemptIndices = [1, 2, 3] := rfl
    have h : retryLoop ready parse attemptIndices [] = Except.error gridErrMsg := by
      rw [e]
      simp [retryLoop, hr 1, hr 2, hr 3]
    unfold mainResult
    rw [h]

/-- C1 (witness): both branches at concrete behaviors — never-ready yields
the grid error; always-ready-zero-rows yields the empty success. -/
theorem C1_witness :
    mainResult (fun _ => false) (fun _ => []) digestStand urlpNone jdNone ("T")
      = Except.error gridErrMsg :=
  C1_orchestrator_exit_contract.2 (fun _ => false) (fun _ => []) digestStand urlpNone jdNone
    ("T") (fun _ => rfl)

/-- C6 (counterexample): `headerPick` matches only the alias as written, its
all-uppercase form and its all-lowercase form; the mixed-casing key
`"NoTiCe TiTlE"` (differing from the alias `"Notice Title"` only in letter
casing) is NOT resolved, so the claimed full case-insensitivity fails. -/
theorem C6_counterexample :
    headerPick [(("NoTiCe TiTlE"), ("X"))] [("Notice Title"), ("Title")] = none
    ∧ ¬ headerPick [(("NoTiCe TiTlE"), ("X"))] [("Notice Title"), ("Title")] = some ("X") := by
  decide

/-- C6 (amended): field resolution scans the alias list in priority order
(`"Notice Title"` before `"Title"`) and picks the first alias with a
non-blank value, but the case handling is limited to three probes per alias:
the alias exactly as written, its all-uppercase form, and its all-lowercase
form; a blank value under an earlier alias falls through to later aliases. -/
theorem C6_alias_resolution (v w : String) (hv : trimChars v ≠ "") (hw : trimChars w ≠ "") :
    headerPick [(("Notice Title"), v), (("Title"), w)] [("Notice Title"), ("Title")] = some v
    ∧ headerPick [(("NOTICE TITLE"), v)] [("Notice Title"), ("Title")] = some v
    ∧ headerPick [(("notice title"), v)] [("Notice Title"), ("Title")] = some v
    ∧ headerPick [(("Title"), w)] [("Notice Title"), ("Title")] = some w
    ∧ headerPick [(("Notice Title"), (" ")), (("Title"), w)] [("Notice Title"), ("Title")]
        = some w := by
  refine ⟨?_, ?_, ?_, ?_, ?_⟩
  · have h1 : pickKey [(("Notice Title"), v), (("Title"), w)] ("Notice Title") = some v := by
      show (if trimChars v = "" then none else some v) = some v
      rw [if_neg hv]
    have h2 : pickVariants [(("Notice Title"), v), (("Title"), w)] ("Notice Title") = some v := by
      simp only [pickVariants, h1]
    simp only [headerPick, h2]
  · have h1 : pickKey [(("NOTICE TITLE"), v)] (upperChars ("Notice Title")) = some v := by
      show (if trimChars v = "" then none else some v) = some v
      rw [if_neg hv]
    have h2 : pickVariants [(("NOTICE TITLE"), v)] ("Notice Title") = some v := by
      simp only [pickVariants,
        show pickKey [(("NOTICE TITLE"), v)] ("Notice Title") = none from rfl, h1]
    simp only [headerPick, h2]
  · have h1 : pickKey [(("notice title"), v)] (lowerChars ("Notice Title")) = some v := by
      show (if trimChars v = "" then none else some v) = some v
      rw [if_neg hv]
    have h2 : pickVariants [(("notice title"), v)] ("Notice Title") = some v := by
      simp only [pickVariants,
        show pickKey [(("notice title"), v)] ("Notice Title") = none from rfl,
        show pickKey [(("notice title"), v)] (upperChars ("Notice Title")) = none from rfl, h1]
    simp only [headerPick, h2]
  · have h1 : pickKey [(("Title"), w)] ("Title") = some w := by
      show (if trimChars w = "" then none else some w) = some w
      rw [if_neg hw]
    have h2 : pickVariants [(("Title"), w)] ("Title") = some w := by
      simp only [pickVariants, h1]
    have h3 : pickVariants [(("Title"), w)] ("Notice Title") = none := rfl
    simp only [headerPick, h3, h2]
  · have h1 : pickKey [(("Notice Title"), (" ")), (("Title"), w)] ("Title") = some w := by
      show (if trimChars w = "" then none else some w) = some w
      rw [if_neg hw]
    have h2 : pickVariants [(("Notice Title"), (" ")), (("Title"), w)] ("Title") = some w := by
      simp only [pickVariants, h1]
    have h3 : pickVariants [(("Notice Title"), (" ")), (("Title"), w)] ("Notice Title")
        = none := rfl
    simp only [headerPick, h3, h2]

/-- C6 (witness): the amended resolution behavior at concrete values. -/
theorem C6_witness :
    headerPick [(("Notice Title"), ("X")), (("Title"), ("Y"))] [("Notice Title"), ("Title")]
        = some ("X")
    ∧ headerPick [(("NOTICE TITLE"), ("X"))] [("Notice Title"), ("Title")] = some ("X")
    ∧ headerPick [(("notice title"), ("X"))] [("Notice Title"), ("Title")] = some ("X")
    ∧ headerPick [(("Title"), ("Y"))] [("Notice Title"), ("Title")] = some ("Y")
    ∧ headerPick [(("Notice Title"), (" ")), (("Title"), ("Y"))] [("Notice Title"), ("Title")]
        = some ("Y") :=
  C6_alias_resolution ("X") ("Y") (by decide) (by decide)

/-- C9: the two parser generations' classifiers agree on every
keyword-matching input; on non-empty unmatched input the later (v7,
canonical) generation preserves the raw string while the earlier (v6)
generation collapses to "Other"; on empty input both return "Other" — for
both `classifyType` and `classifyCategory`. -/
theorem C9_classifier_generations (s : String) :
    (typeKeywordHit s = true → classifyType s = classifyType_v6 s)
    ∧ (typeKeywordHit s = false → s ≠ "" → classifyType s = s ∧ classifyType_v6 s = "Other")
    ∧ (catKeywordHit s = true → classifyCategory s = classifyCategory_v6 s)
    ∧ (catKeywordHit s = false → s ≠ "" →
        classifyCategory s = s ∧ classifyCategory_v6 s = "Other")
    ∧ (classifyType ("") = "Other" ∧ classifyType_v6 ("") = "Other"
        ∧ classifyCategory ("") = "Other" ∧ classifyCategory_v6 ("") = "Other") := by
  refine ⟨?_, ?_, ?_, ?_, by decide⟩
  · intro h
    simp only [typeKeywordHit, Bool.or_eq_true] at h
    simp only [classifyType, classifyType_v6]
    by_cases h1 : (strContains (lowerChars s) ("expression of interest")
        || strContains (lowerChars s) ("reoi")) = true
    · simp [h1]
    · by_cases h2 : (strContains (lowerChars s) ("invitation to bid")
          || strContains (lowerChars s) ("rfb") || strContains (lowerChars s) ("itb")) = true
      · simp [h1, h2]
      · by_cases h3 : (strContains (lowerChars s) ("request for proposals")
            || strContains (lowerChars s) ("rfp")) = true
        · simp [h1, h2, h3]
        · by_cases h4 : (strContains (lowerChars s) ("general procurement notice")
              || strContains (lowerChars s) ("gpn")) = true
          · simp [h1, h2, h3, h4]
          · by_cases h5 : strContains (lowerChars s) ("award") = true
            · simp [h1, h2, h3, h4, h5]
            · exfalso
              simp only [Bool.or_eq_true] at h1 h2 h3 h4
              tauto
  · intro h hne
    simp only [classifyType, classifyType_v6]
    by_cases h1 : (strContains (lowerChars s) ("expression of interest")
        || strContains (lowerChars s) ("reoi")) = true
    · exfalso; simp [typeKeywordHit, h1] at h
    · by_cases h2 : (strContains (lowerChars s) ("invitation to bid")
          || strContains (lowerChars s) ("rfb") || strContains (lowerChars s) ("itb")) = true
      · exfalso; simp [typeKeywordHit, h2] at h
      · by_cases h3 : (strContains (lowerChars s) ("request for proposals")
            || strContains (lowerChars s) ("rfp")) = true
        · exfalso; simp [typeKeywordHit, h3] at h
        · by_cases h4 : (strContains (lowerChars s) ("general procurement notice")
              || strContains (lowerChars s) ("gpn")) = true
          · exfalso; simp [typeKeywordHit, h4] at h
          · by_cases h5 : strContains (lowerChars s) ("award") = true
            · exfalso; simp [typeKeywordHit, h5] at h
            · simp [h1, h2, h3, h4, h5, hne]
  · intro h
    simp only [catKeywordHit, Bool.or_eq_true] at h
    simp only [classifyCategory, classifyCategory_v6]
    by_cases h1 : strContains (lowerChars s) ("works") = true
    · simp [h1]
    · by_cases h2 : (strContains (lowerChars s) ("goods")
          || strContains (lowerChars s) ("supply")) = true
      · simp [h1, h2]
      · by_cases h3 : strContains (lowerChars s) ("consult") = true
        · simp [h1, h2, h3]
        · exfalso
          simp only [Bool.or_eq_true] at h2
          tauto
  · intro h hne
    simp only [classifyCategory, classifyCategory_v6]
    by_cases h1 : strContains (lowerChars s) ("works") = true
    · exfalso; simp [catKeywordHit, h1] at h
    · by_cases h2 : (strContains (lowerChars s) ("goods")
          || strContains (lowerChars s) ("supply")) = true
      · exfalso; simp [catKeywordHit, h2] at h
      · by_cases h3 : strContains (lowerChars s) ("consult") = true
        · exfalso; simp [catKeywordHit, h3] at h
        · simp [h1, h2, h3, hne]

/-- C9 (witness): generation agreement at the matching input `"rfp"` and
raw-preserving divergence at the unmatched input `"hello"`. -/
theorem C9_witness :
    classifyType ("rfp") = classifyType_v6 ("rfp")
    ∧ (classifyType ("hello") = "hello" ∧ classifyType_v6 ("hello") = "Other")
    ∧ classifyCategory ("goods") = classifyCategory_v6 ("goods")
    ∧ (classifyCategory ("hello") = "hello" ∧ classifyCategory_v6 ("hello") = "Other") :=
  ⟨(C9_classifier_generations ("rfp")).1 (by decide),
   (C9_classifier_generations ("hello")).2.1 (by decide) (by decide),
   (C9_classifier_generations ("goods")).2.2.1 (by decide),
   (C9_classifier_generations ("hello")).2.2.2.1 (by decide) (by decide)⟩

/-- Specification-side deduplication, written from the spec's words: keep
one entry per distinct `(id, hash)` pair — the first occurrence — preserving
first-seen input order (each kept record erases its later duplicates). -/
def dedupeSpecFirstSeen : List CanonicalRecord → List CanonicalRecord
  | [] => []
  | r :: rs =>
    r :: dedupeSpecFirstSeen (rs.filter (fun x => dedupeKey x != dedupeKey r))
termination_by l => l.length
decreasing_by
  simp only [List.length_cons]
  exact Nat.lt_succ_of_le (List.length_filter_le _ _)

theorem dedupeGo_eq_spec (l : List CanonicalRecord) : ∀ seen : List String,
    dedupeGo seen l
      = dedupeSpecFirstSeen (l.filter (fun x => ! seen.contains (dedupeKey x))) := by
  induction l with
  | nil => intro seen; simp [dedupeGo, dedupeSpecFirstSeen]
  | cons n rest ih =>
    intro seen
    cases h : seen.contains (dedupeKey n) with
    | true =>
      simp only [dedupeGo, h, if_true]
      rw [ih seen]
      congr 1
      simp only [List.filter_cons, h, Bool.not_true, Bool.false_eq_true, if_false]
    | false =>
      simp only [dedupeGo, h, Bool.false_eq_true, if_false]
      rw [ih (dedupeKey n :: seen)]
      simp only [List.filter_cons, h, Bool.not_false, if_true]
      rw [dedupeSpecFirstSeen]
      congr 1
      rw [List.filter_filter]
      apply congrArg
      apply List.filter_congr
      intro x _
      simp only [List.contains_cons, Bool.not_or, bne]

theorem dedupeSpecFirstSeen_sublist (l : List CanonicalRecord) :
    (dedupeSpecFirstSeen l).Sublist l := by
  induction l using dedupeSpecFirstSeen.induct with
  | case1 => simp [dedupeSpecFirstSeen]
  | case2 r rs ih =>
    rw [dedupeSpecFirstSeen]
    exact List.Sublist.cons₂ r (ih.trans (List.filter_sublist rs))

theorem dedupeSpecFirstSeen_pairwise (l : List CanonicalRecord) :
    (dedupeSpecFirstSeen l).Pairwise (fun a b => dedupeKey a ≠ dedupeKey b) := by
  induction l using dedupeSpecFirstSeen.induct with
  | case1 => simp [dedupeSpecFirstSeen]
  | case2 r rs ih =>
    rw [dedupeSpecFirstSeen]
    refine List.Pairwise.cons ?_ ih
    intro b hb
    have hbf := (dedupeSpecFirstSeen_sublist _).subset hb
    have := List.of_mem_filter hbf
    simpa [bne] using fun he => by simp [he.symm] at this

theorem dedupeSpecFirstSeen_covers (l : List CanonicalRecord) :
    ∀ r ∈ l, ∃ q ∈ dedupeSpecFirstSeen l, dedupeKey q = dedupeKey r := by
  induction l using dedupeSpecFirstSeen.induct with
  | case1 => intro r hr; cases hr
  | case2 r rs ih =>
    intro x hx
    rw [dedupeSpecFirstSeen]
    rcases List.mem_cons.mp hx with he | hm
    · exact ⟨r, List.mem_cons_self r _, by rw [he]⟩
    · by_cases hk : dedupeKey x = dedupeKey r
      · exact ⟨r, List.mem_cons_self r _, hk.symm ▸ rfl⟩
      · have hxf : x ∈ rs.filter (fun y => dedupeKey y != dedupeKey r) := by
          refine List.mem_filter.mpr ⟨hm, ?_⟩
          simpa [bne] using hk
        obtain ⟨q, hq, hqe⟩ := ih x hxf
        exact ⟨q, List.mem_cons_of_mem r hq, hqe⟩

/-- C5: `dedupeByIdHash` coincides with the specification's first-occurrence
dedup: output is a sublist of the input (input order preserved), keys
`(id, hash)` are pairwise distinct, every input key is represented, and in
particular two records sharing `(id, hash)` plus one with a different hash
collapse to exactly two entries in original order. -/
theorem C5_dedupe_contract :
    (∀ arr : List CanonicalRecord,
      dedupeByIdHash arr = dedupeSpecFirstSeen arr
      ∧ (dedupeByIdHash arr).Sublist arr
      ∧ (dedupeByIdHash arr).Pairwise (fun a b => dedupeKey a ≠ dedupeKey b)
      ∧ ∀ r ∈ arr, ∃ q ∈ dedupeByIdHash arr, dedupeKey q = dedupeKey r)
    ∧ (∀ r1 r2 r3 : CanonicalRecord, dedupeKey r1 = dedupeKey r2 →
        dedupeKey r3 ≠ dedupeKey r1 →
        dedupeByIdHash [r1, r2, r3] = [r1, r3]
        ∧ dedupeByIdHash [r1, r3, r2] = [r1, r3]) := by
  have key : ∀ arr : List CanonicalRecord, dedupeByIdHash arr = dedupeSpecFirstSeen arr := by
    intro arr
    unfold dedupeByIdHash
    rw [dedupeGo_eq_spec]
    congr 1
    simp
  constructor
  · intro arr
    refine ⟨key arr, ?_, ?_, ?_⟩
    · rw [key arr]; exact dedupeSpecFirstSeen_sublist arr
    · rw [key arr]; exact dedupeSpecFirstSeen_pairwise arr
    · rw [key arr]; exact dedupeSpecFirstSeen_covers arr
  · intro r1 r2 r3 h12 h31
    have h21 : dedupeKey r2 = dedupeKey r1 := h12.symm
    have hb31 : (dedupeKey r3 == dedupeKey r1) = false := beq_eq_false_iff_ne.mpr h31
    have hb23 : (dedupeKey r2 == dedupeKey r3) = false := by
      rw [h21]
      exact beq_eq_false_iff_ne.mpr (fun he => h31 he.symm)
    constructor
    · simp [dedupeByIdHash, dedupeGo, List.contains_cons, h21, hb31, h31]
    · simp [dedupeByIdHash, dedupeGo, List.contains_cons, h21, hb31, hb23, h31]

/-- A concrete record template used to instantiate dedup facts. -/
def sampleRecord (i h : String) : CanonicalRecord :=
  { id := i, source := "IDB", noticeId := "", projectId := none, projectName := none,
    title := "t", summary_original := none, summary_ko := none, countryName := none,
    country := none, sector := ["Other"], category := "Other", method := none,
    noticeType := "Other", currency := none, budgetEstimate := none, publicationDate := none,
    deadline := none, buyer := none, city := none, language := ["en"], url := "u",
    documents := [], lastSeenAt := "T", hash := h }

/-- C5 (witness): the three-record dedup instance at concrete records. -/
theorem C5_witness :
    dedupeByIdHash
        [sampleRecord ("A") ("h1"), sampleRecord ("A") ("h1"), sampleRecord ("A") ("h2")]
      = [sampleRecord ("A") ("h1"), sampleRecord ("A") ("h2")] :=
  (C5_dedupe_contract.2 (sampleRecord ("A") ("h1")) (sampleRecord ("A") ("h1"))
    (sampleRecord ("A") ("h2")) rfl (by decide)).1

/-- The exact string the v7 hash digests: the `"|"`-join of the four salient
fields (`title`, `countryName`, `deadline`, `url`, nulls rendered as `""`). -/
def fingerprintInput (x : CanonicalRecord) : String :=
  x.title ++ "|" ++ x.countryName.getD "" ++ "|" ++ x.deadline.getD "" ++ "|" ++ x.url

theorem normalizeRow_hash_eq (sha : String → String) (urlp : String → Option (String × String))
    (jd : String → Option Int) (now : String) (r : RawRow) :
    (normalizeRow sha urlp jd now r).hash
      = sha (fingerprintInput (normalizeRow sha urlp jd now r)) := rfl

theorem mem_normalizeRows (sha : String → String) (urlp : String → Option (String × String))
    (jd : String → Option Int) (now : String) (rows : List RawRow) (x : CanonicalRecord)
    (hx : x ∈ normalizeRows sha urlp jd now rows) :
    ∃ r ∈ rows, x = normalizeRow sha urlp jd now r := by
  unfold normalizeRows at hx
  have hx2 := List.mem_of_mem_filter hx
  obtain ⟨r, hr, he⟩ := List.mem_map.mp hx2
  exact ⟨r, hr, he.symm⟩

theorem mem_normalizeRows_hash (sha : String → String) (urlp : String → Option (String × String))
    (jd : String → Option Int) (now : String) (rows : List RawRow) (x : CanonicalRecord)
    (hx : x ∈ normalizeRows sha urlp jd now rows) : x.hash = sha (fingerprintInput x) := by
  obtain ⟨r, _, rfl⟩ := mem_normalizeRows sha urlp jd now rows x hx
  rfl

theorem mem_normalizeRows_countryName (sha : String → String)
    (urlp : String → Option (String × String)) (jd : String → Option Int) (now : String)
    (rows : List RawRow) (x : CanonicalRecord) (hx : x ∈ normalizeRows sha urlp jd now rows)
    (v : String) (hv : x.countryName = some v) : v ≠ "" := by
  obtain ⟨r, _, rfl⟩ := mem_normalizeRows sha urlp jd now rows x hx
  have he : (normalizeRow sha urlp jd now r).countryName = headerPick r [("Country")] := rfl
  rw [he] at hv
  exact headerPick_some_ne_empty _ r v hv

theorem toISO_shape (jd : String → Option Int) (raw : Option String) (out : String)
    (h : toISO jd raw = some out) : ∃ z : Int, out = sliceChars 10 (isoOfDays z) := by
  cases raw with
  | none => simp [toISO] at h
  | some r =>
    simp only [toISO] at h
    by_cases hr : r = ""
    · rw [if_pos hr] at h; cases h
    · rw [if_neg hr] at h
      repeat
        first
        | exact ⟨_, (Option.some.inj h).symm⟩
        | (obtain ⟨ms, _, he⟩ := Option.map_eq_some'.mp h
           exact ⟨_, he.symm⟩)
        | split at h

theorem sliceChars_ne_empty (s : String) (hs : s.data ≠ []) (n : Nat) (hn : n ≠ 0) :
    sliceChars n s ≠ "" := by
  intro he
  apply hs
  have hd : (sliceChars n s).data = [] := by rw [he]
  have hd2 : s.data.take n = [] := hd
  rcases List.take_eq_nil_iff.mp hd2 with h0 | h0
  · exact absurd h0 hn
  · exact h0

theorem isoOfDays_data_ne_nil (z : Int) : (isoOfDays z).data ≠ [] := by
  unfold isoOfDays
  simp only [String.data_append, show ("-" : String).data = ['-'] from rfl]
  simp [List.append_eq_nil]

theorem toISO_some_ne_empty (jd : String → Option Int) (raw : Option String) (out : String)
    (h : toISO jd raw = some out) : out ≠ "" := by
  obtain ⟨z, rfl⟩ := toISO_shape jd raw out h
  exact sliceChars_ne_empty _ (isoOfDays_data_ne_nil z) 10 (by decide)

theorem mem_normalizeRows_deadline (sha : String → String)
    (urlp : String → Option (String × String)) (jd : String → Option Int) (now : String)
    (rows : List RawRow) (x : CanonicalRecord) (hx : x ∈ normalizeRows sha urlp jd now rows)
    (v : String) (hv : x.deadline = some v) : v ≠ "" := by
  obtain ⟨r, _, rfl⟩ := mem_normalizeRows sha urlp jd now rows x hx
  have he : (normalizeRow sha urlp jd now r).deadline
      = toISO jd (headerPick r [("Due Date"), ("Deadline"), ("Closing Date")]) := rfl
  rw [he] at hv
  exact toISO_some_ne_empty jd _ v hv

/-- A string is free of the `"|"` join separator. -/
def pipeFree (s : String) : Prop := '|' ∉ s.data

theorem strData_inj {a b : String} (h : a.data = b.data) : a = b := by
  cases a
  cases b
  exact congrArg String.mk h

theorem append_pipe_cancel (s : List Char) : ∀ (s' t t' : List Char), '|' ∉ s → '|' ∉ s' →
    s ++ '|' :: t = s' ++ '|' :: t' → s = s' ∧ t = t' := by
  induction s with
  | nil =>
    intro s' t t' _ hs' h
    cases s' with
    | nil => simpa using h
    | cons c cs =>
      rw [List.nil_append] at h
      injection h with h1 _
      exact absurd (by rw [← h1]; exact List.mem_cons_self _ _ : '|' ∈ c :: cs) hs'
  | cons c cs ih =>
    intro s' t t' hs hs' h
    cases s' with
    | nil =>
      rw [List.nil_append] at h
      injection h with h1 _
      exact absurd (by rw [h1]; exact List.mem_cons_self _ _ : '|' ∈ c :: cs) hs
    | cons c' cs' =>
      injection h with h1 h2
      obtain ⟨e1, e2⟩ := ih cs' t t' (fun hm => hs (List.mem_cons_of_mem _ hm))
        (fun hm => hs' (List.mem_cons_of_mem _ hm)) h2
      exact ⟨by rw [h1, e1], e2⟩

theorem join4_inj (a b c d a' b' c' d' : String)
    (ha : pipeFree a) (ha' : pipeFree a') (hb : pipeFree b) (hb' : pipeFree b')
    (hc : pipeFree c) (hc' : pipeFree c')
    (h : a ++ "|" ++ b ++ "|" ++ c ++ "|" ++ d = a' ++ "|" ++ b' ++ "|" ++ c' ++ "|" ++ d') :
    a = a' ∧ b = b' ∧ c = c' ∧ d = d' := by
  have hd := congrArg String.data h
  simp only [String.data_append, show ("|" : String).data = ['|'] from rfl,
    List.append_assoc, List.singleton_append] at hd
  obtain ⟨e1, hrest⟩ := append_pipe_cancel _ _ _ _ ha ha' hd
  obtain ⟨e2, hrest2⟩ := append_pipe_cancel _ _ _ _ hb hb' hrest
  obtain ⟨e3, e4⟩ := append_pipe_cancel _ _ _ _ hc hc' hrest2
  exact ⟨strData_inj e1, strData_inj e2, strData_inj e3, strData_inj e4⟩

/-- C4 (counterexample): the hash digests the `"|"`-join of the four salient
fields, so fields that themselves contain `"|"` can collide: the rows
`{"Notice Title": "x|y", "URL": "u"}` and
`{"Notice Title": "x", "Country": "y|", "URL": "u"}` normalize to records
with the same fingerprint input `"x|y|||u"` — equal hashes under any digest —
yet different titles. -/
theorem C4_counterexample :
    (normalizeRows digestStand urlpNone jdNone ("T")
        [[(("Notice Title"), ("x|y")), (("URL"), ("u"))],
         [(("Notice Title"), ("x")), (("Country"), ("y|")), (("URL"), ("u"))]]).map
      (fun x => (x.hash, x.title))
      = [(("x|y|||u"), ("x|y")), (("x|y|||u"), ("x"))]
    ∧ ¬ (("x|y") = ("x")) := by
  decide

/-- C4 (amended): for records produced by `normalizeRows` under a
collision-free digest, equality of the four salient fields always implies
hash equality, and hash equality implies equality of the joined fingerprint
string; the converse field-level equivalence holds exactly when the fields
are free of the `"|"` join separator. -/
theorem C4_hash_fingerprint (sha : String → String) (hinj : Function.Injective sha)
    (urlp : String → Option (String × String)) (jd : String → Option Int) (now : String)
    (rows : List RawRow) (a b : CanonicalRecord)
    (ha : a ∈ normalizeRows sha urlp jd now rows) (hb : b ∈ normalizeRows sha urlp jd now rows) :
    ((a.title = b.title ∧ a.countryName = b.countryName ∧ a.deadline = b.deadline
        ∧ a.url = b.url) → a.hash = b.hash)
    ∧ (a.hash = b.hash → fingerprintInput a = fingerprintInput b)
    ∧ (pipeFree a.title → pipeFree b.title → pipeFree (a.countryName.getD "")
        → pipeFree (b.countryName.getD "") → pipeFree (a.deadline.getD "")
        → pipeFree (b.deadline.getD "") →
        (a.hash = b.hash ↔ (a.title = b.title ∧ a.countryName = b.countryName
          ∧ a.deadline = b.deadline ∧ a.url = b.url))) := by
  have hha := mem_normalizeRows_hash sha urlp jd now rows a ha
  have hhb := mem_normalizeRows_hash sha urlp jd now rows b hb
  have fwd : (a.title = b.title ∧ a.countryName = b.countryName ∧ a.deadline = b.deadline
      ∧ a.url = b.url) → a.hash = b.hash := by
    rintro ⟨h1, h2, h3, h4⟩
    rw [hha, hhb]
    unfold fingerprintInput
    rw [h1, h2, h3, h4]
  have mid : a.hash = b.hash → fingerprintInput a = fingerprintInput b := by
    intro h
    rw [hha, hhb] at h
    exact hinj h
  refine ⟨fwd, mid, ?_⟩
  intro pta ptb pca pcb pda pdb
  constructor
  · intro h
    have hf := mid h
    unfold fingerprintInput at hf
    obtain ⟨e1, e2, e3, e4⟩ := join4_inj _ _ _ _ _ _ _ _ pta ptb pca pcb pda pdb hf
    refine ⟨e1, ?_, ?_, e4⟩
    · cases hca : a.countryName with
      | none =>
        cases hcb : b.countryName with
        | none => rfl
        | some w =>
          exfalso
          apply mem_normalizeRows_countryName sha urlp jd now rows b hb w hcb
          rw [hca, hcb] at e2
          exact e2.symm
      | some v =>
        cases hcb : b.countryName with
        | none =>
          exfalso
          apply mem_normalizeRows_countryName sha urlp jd now rows a ha v hca
          rw [hca, hcb] at e2
          exact e2
        | some w =>
          rw [hca, hcb] at e2
          rw [show v = w from e2]
    · cases hda : a.deadline with
      | none =>
        cases hdb : b.deadline with
        | none => rfl
        | some w =>
          exfalso
          apply mem_normalizeRows_deadline sha urlp jd now rows b hb w hdb
          rw [hda, hdb] at e3
          exact e3.symm
      | some v =>
        cases hdb : b.deadline with
        | none =>
          exfalso
          apply mem_normalizeRows_deadline sha urlp jd now rows a ha v hda
          rw [hda, hdb] at e3
          exact e3
        | some w =>
          rw [hda, hdb] at e3
          rw [show v = w from e3]
  · exact fwd

/-- The raw row used to instantiate the C4 fingerprint contract. -/
def c4SampleRow : RawRow := [(("Notice Title"), ("A")), (("URL"), ("u"))]

/-- C4 (witness): the fields-equal-implies-hash-equal direction at a concrete
record produced from `c4SampleRow` under the injective identity digest. -/
theorem C4_witness :
    (normalizeRow digestStand urlpNone jdNone ("T") c4SampleRow).hash
      = (normalizeRow digestStand urlpNone jdNone ("T") c4SampleRow).hash :=
  (C4_hash_fingerprint digestStand digestStand_injective urlpNone jdNone ("T") [c4SampleRow]
    (normalizeRow digestStand urlpNone jdNone ("T") c4SampleRow)
    (normalizeRow digestStand urlpNone jdNone ("T") c4SampleRow)
    (by decide) (by decide)).1 ⟨rfl, rfl, rfl, rfl⟩
